import Mathlib

/-!
Verification of the Contrarian Detection & Author Performance Ledger.

Shallow embedding of the core of the `contrarian-analysis-pipeline`
repository:

* `src/analyzers/contrarian_earnings_analyzer_production.py`
  (`identify_contrarians` — consensus shares, minority flags, correctness
  comparisons, contrarian score);
* `src/analyzers/simplified_contrarian_analyzer.py`
  (`identify_contrarians` — consensus-mode based contrarian flag);
* `src/analyzers/master_contrarian_database.py`
  (author ledger: `_generate_author_id`, `_evaluate_contrarian_accuracy`,
  `_determine_contrarian_type`, `_update_existing_author`,
  `_create_new_author_record`, `_calculate_risk_level`,
  `add_contrarian_analysis`, and the read-side queries).

Numbers are modelled with `ℚ`.  Python's `round(x, n)` is modelled by
rounding `x * 10^n` to the nearest integer (the half-way tie convention
differs from CPython's banker's rounding, but no statement below depends
on a tie).  Python dictionaries keyed by author id are modelled as
association lists with insertion-order update semantics, matching CPython
dict behaviour.  `None` values are modelled with `Option`.
-/

/-- ASCII lowercase mapping of one character (the strings of this domain
are ASCII, so this models Python's `str.lower()` per character). -/
def lowerChar (c : Char) : Char :=
  if 65 ≤ c.toNat ∧ c.toNat ≤ 90 then Char.ofNat (c.toNat + 32) else c

/-- Model of Python `str.lower()` on the ASCII strings of this domain. -/
def pyLower (s : String) : String := ⟨s.data.map lowerChar⟩

/-- Model of Python `str.replace(pat, rep)` for a one-character pattern
and one-character replacement. -/
def replChar (pat rep : Char) (s : String) : String :=
  ⟨s.data.map (fun c => if c = pat then rep else c)⟩

/-- Model of Python `str.replace(pat, '')` for a one-character
pattern. -/
def dropChar (pat : Char) (s : String) : String :=
  ⟨s.data.filter (fun c => c ≠ pat)⟩

/-- Model of Python `round(x, 1)` on rationals. -/
def round1 (q : ℚ) : ℚ := (round (q * 10) : ℤ) / 10

/-- Model of Python `round(x, 2)` on rationals. -/
def round2 (q : ℚ) : ℚ := (round (q * 100) : ℤ) / 100

/-! ## Classification input: articles and actual outcomes -/

/-- The per-article LLM classification (`article['analysis']`):
sentiment, earnings prediction and the two confidence labels, each a free
string in the source (absent keys modelled as `none`). -/
structure Analysis where
  sentiment : String
  earnings_prediction : String
  confidence : Option String
  prediction_confidence : Option String
deriving Repr, DecidableEq

/-- One collected article.  `analysis` is `none` when the LLM step
produced no classification (the Python code filters on the truthiness of
`article.get('analysis')`).  Traceability metadata other than
headline/date/url is omitted. -/
structure Article where
  author : String
  headline : String
  date : String
  url : String
  analysis : Option Analysis
deriving Repr, DecidableEq

/-- The resolved actual outcome of an earnings event
(`actual_result` dict): the continuous percentage price change and the
discretized `result` string. -/
structure ActualResult where
  price_change_percent : ℚ
  result : String
deriving Repr, DecidableEq

/-- Mapping of a continuous price change to a sentiment label, as inlined
in `identify_contrarians` (production): `> 3 → bullish`, `< -3 → bearish`,
otherwise `neutral`. -/
def actualSentiment (pc : ℚ) : String :=
  if pc > 3 then "bullish" else if pc < -3 then "bearish" else "neutral"

/-- `sentiment_correct` in `identify_contrarians` (production): `False`
when no actual result is available. -/
def sentimentCorrectOf (s : String) (ar : Option ActualResult) : Bool :=
  match ar with
  | none => false
  | some a => s = actualSentiment a.price_change_percent

/-- `prediction_correct` in `identify_contrarians` (production): `False`
when no actual result is available. -/
def predictionCorrectOf (p : String) (ar : Option ActualResult) : Bool :=
  match ar with
  | none => false
  | some a => p = a.result

/-- `was_correct` in `identify_contrarians` (production): either
comparison matching suffices. -/
def wasCorrectOf (s p : String) (ar : Option ActualResult) : Bool :=
  sentimentCorrectOf s ar || predictionCorrectOf p ar

/-- The confidence bonus in `identify_contrarians` (production):
`20 if conf == 'high' else 10 if conf == 'medium' else 5`.  Note the
final `else 5` also catches an absent confidence. -/
def confidenceBonus (c : Option String) : ℚ :=
  if c = some "high" then 20 else if c = some "medium" then 10 else 5

/-- The contrarian-score accumulation of `identify_contrarians`
(production), mirroring the imperative
`contrarian_score = 0; if minority: contrarian_score += base_score`
structure, with `base_score *= 1.5` applied when the dimension is
individually correct and an actual result is available. -/
def scoreOf (minS : Bool) (spct : ℚ) (conf : Option String) (sCorrect : Bool)
    (minP : Bool) (ppct : ℚ) (pconf : Option String) (pCorrect : Bool)
    (outcomePresent : Bool) : ℚ :=
  let score0 : ℚ := 0
  let score1 :=
    if minS then
      let base := (1 - spct) * 100 + confidenceBonus conf
      score0 + (if outcomePresent && sCorrect then base * (3/2) else base)
    else score0
  let score2 :=
    if minP then
      let base := (1 - ppct) * 100 + confidenceBonus pconf
      score1 + (if outcomePresent && pCorrect then base * (3/2) else base)
    else score1
  score2

/-- One emitted contrarian finding of `identify_contrarians` (production).
Percentages are emitted rounded to one decimal and the score to two, as
in the source. -/
structure Finding where
  author : String
  headline : String
  date : String
  url : String
  sentiment : String
  prediction : String
  sentiment_percentage : ℚ
  prediction_percentage : ℚ
  was_minority_sentiment : Bool
  was_minority_prediction : Bool
  sentiment_correct : Bool
  prediction_correct : Bool
  contrarian_score : ℚ
  confidence : Option String
  prediction_confidence : Option String
  actual_result_available : Bool
deriving Repr, DecidableEq

/-- Stable insertion of an element into a list sorted descending by a key
(an element moves ahead only of strictly smaller keys among later
elements, matching Python's stable `sort(..., reverse=True)`). -/
def insertDescBy {α : Type} (key : α → ℚ) (x : α) : List α → List α
  | [] => [x]
  | y :: ys => if key y ≤ key x then x :: y :: ys else y :: insertDescBy key x ys

/-- Stable descending sort by a rational key. -/
def sortDescBy {α : Type} (key : α → ℚ) : List α → List α
  | [] => []
  | x :: xs => insertDescBy key x (sortDescBy key xs)

/-- `identify_contrarians` of
`contrarian_earnings_analyzer_production.py`: filter validly analyzed
articles, tally sentiment and prediction distributions, flag categories
holding strictly less than 40% of the batch as minority, compute the two
correctness comparisons against the optional actual result, score each
minority opinion, and return the findings sorted by score descending.
Opinions with no minority dimension are not emitted. -/
def identifyContrarians (articles : List Article) (ar : Option ActualResult) :
    List Finding :=
  let valid := articles.filterMap (fun a => a.analysis.map (fun an => (a, an)))
  match valid with
  | [] => []
  | _ =>
    let sentiments := valid.map (fun x => x.2.sentiment)
    let predictions := valid.map (fun x => x.2.earnings_prediction)
    let total : ℚ := (valid.length : ℚ)
    let findings := valid.filterMap (fun x =>
      let a := x.1
      let an := x.2
      let spct : ℚ := (sentiments.count an.sentiment : ℚ) / total
      let ppct : ℚ := (predictions.count an.earnings_prediction : ℚ) / total
      let minS := decide (spct < 2/5)
      let minP := decide (ppct < 2/5)
      let sCorrect := sentimentCorrectOf an.sentiment ar
      let pCorrect := predictionCorrectOf an.earnings_prediction ar
      if minS || minP then
        some { author := a.author, headline := a.headline, date := a.date,
               url := a.url, sentiment := an.sentiment,
               prediction := an.earnings_prediction,
               sentiment_percentage := round1 (spct * 100),
               prediction_percentage := round1 (ppct * 100),
               was_minority_sentiment := minS,
               was_minority_prediction := minP,
               sentiment_correct := sCorrect,
               prediction_correct := pCorrect,
               contrarian_score :=
                 round2 (scoreOf minS spct an.confidence sCorrect
                           minP ppct an.prediction_confidence pCorrect
                           ar.isSome),
               confidence := an.confidence,
               prediction_confidence := an.prediction_confidence,
               actual_result_available := ar.isSome }
      else none)
    sortDescBy (fun f => f.contrarian_score) findings

/-! ## Simplified analyzer -/

/-- First occurrences of the elements of a list, in encounter order
(the candidate order of Python's insertion-ordered `Counter`). -/
def firstOccurrences (l : List String) : List String :=
  l.foldl (fun acc s => if s ∈ acc then acc else acc ++ [s]) []

/-- `Counter(l).most_common(1)[0][0]`: the earliest-encountered element of
maximal multiplicity (Python's `most_common` sorts stably by count
descending over insertion order).  Empty input yields `""` (the Python
call would fail; `identify_contrarians` only evaluates it on non-empty
batches). -/
def mostCommon (l : List String) : String :=
  match firstOccurrences l with
  | [] => ""
  | x :: xs => (x :: xs).foldl (fun best c => if l.count best < l.count c then c else best) x

/-- `was_correct` of the simplified analyzer: `False` without an actual
result, otherwise prediction-match OR mapped-sentiment match. -/
def simpleWasCorrect (an : Analysis) (ar : Option ActualResult) : Bool :=
  match ar with
  | none => false
  | some a =>
      (an.earnings_prediction = a.result : Bool)
        || (an.sentiment = actualSentiment a.price_change_percent : Bool)

/-- One `ContrarianRecord` of the simplified analyzer (passthrough
metadata fields omitted). -/
structure SimpleRecord where
  author : String
  prediction : String
  sentiment : String
  was_contrarian : Bool
  was_correct : Bool
  actual_result : String
deriving Repr, DecidableEq

/-- `identify_contrarians` of `simplified_contrarian_analyzer.py`: the
consensus is the most common sentiment/prediction, and an opinion is
contrarian when it differs from the consensus on either dimension. -/
def identifyContrariansSimplified (articles : List Article)
    (ar : Option ActualResult) : List SimpleRecord :=
  let valid := articles.filterMap (fun a => a.analysis.map (fun an => (a, an)))
  match valid with
  | [] => []
  | _ =>
    let consensusS := mostCommon (valid.map (fun x => x.2.sentiment))
    let consensusP := mostCommon (valid.map (fun x => x.2.earnings_prediction))
    valid.map (fun x =>
      { author := x.1.author,
        prediction := x.2.earnings_prediction,
        sentiment := x.2.sentiment,
        was_contrarian :=
          (x.2.sentiment ≠ consensusS : Bool)
            || (x.2.earnings_prediction ≠ consensusP : Bool),
        was_correct := simpleWasCorrect x.2 ar,
        actual_result := match ar with | some r => r.result | none => "unknown" })

/-! ## Author ledger (`master_contrarian_database.py`) -/

/-- `_generate_author_id`: lowercase, spaces to underscores, periods and
commas removed. -/
def generateAuthorId (authorName : String) : String :=
  dropChar ',' (dropChar '.' (replChar ' ' '_' (pyLower authorName)))

/-- One contrarian dict as consumed by `add_contrarian_analysis` (the
fields it reads: author, prediction, sentiment, score and the two
minority flags). -/
structure ContrarianDict where
  author : String
  earnings_prediction : String
  sentiment : String
  contrarian_score : ℚ
  was_minority_sentiment : Bool
  was_minority_prediction : Bool
deriving Repr, DecidableEq

/-- One author row of the master ledger, with the in-memory types of
`_create_new_author_record`. -/
structure AuthorRecord where
  authorId : String
  authorName : String
  firstSeenDate : String
  lastSeenDate : String
  totalEarningsCalls : ℕ
  totalCompaniesCovered : ℕ
  totalContrarianInstances : ℕ
  successfulCalls : ℕ
  failedCalls : ℕ
  successRate : Option ℚ
  overallScore : ℚ
  avgScore : ℚ
  companiesList : List String
  latestCompany : String
  latestSymbol : String
  latestEarningsDate : String
  latestContrarianType : String
  latestWasCorrect : Option Bool
  repeatCount : ℕ
  consistencyScore : ℚ
  riskLevel : String
  lastUpdated : String
deriving Repr, DecidableEq

/-- `_evaluate_contrarian_accuracy`: `None` when there is no actual
result; otherwise compares the lowercased prediction with the lowercased
actual `result`, returning a verdict only over the three known
categories, `False` when both strings are non-empty but do not match a
common category, and `None` when either is empty. -/
def evalAccuracy (c : ContrarianDict) (ar : Option ActualResult) : Option Bool :=
  match ar with
  | none => none
  | some a =>
    let p := pyLower c.earnings_prediction
    let o := pyLower a.result
    if p = "beat" ∧ o = "beat" then some true
    else if p = "miss" ∧ o = "miss" then some true
    else if p = "meet" ∧ o = "meet" then some true
    else if p ≠ "" ∧ o ≠ "" then some false
    else none

/-- `_determine_contrarian_type`. -/
def determineContrarianType (c : ContrarianDict) : String :=
  if c.was_minority_sentiment && c.was_minority_prediction then
    "Both_Sentiment_Prediction"
  else if c.was_minority_sentiment then "Sentiment_Only"
  else if c.was_minority_prediction then "Prediction_Only"
  else "Unknown"

/-- `_calculate_risk_level`: the branch cascade of the source, reading
only the success rate (`None` modelled as `none`), the total contrarian
instances and the consistency score. -/
def calculateRiskLevel (successRate : Option ℚ) (totalCalls : ℕ)
    (consistency : ℚ) : String :=
  match successRate with
  | none => "Unknown"
  | some sr =>
    if totalCalls < 2 then "Unknown"
    else if sr ≥ 70 ∧ totalCalls ≥ 3 then "Low_Risk"
    else if sr ≥ 50 ∧ consistency ≥ 50 then "Medium_Risk"
    else if sr < 30 ∨ consistency < 20 then "High_Risk"
    else "Medium_Risk"

/-- `_create_new_author_record`.  `now` stands for the
`datetime.now()` timestamp string. -/
def createNewAuthorRecord (authorName authorId company symbol earningsDate
    contrarianType : String) (wasCorrect : Option Bool)
    (contrarianScore : ℚ) (now : String) : AuthorRecord :=
  { authorId := authorId,
    authorName := authorName,
    firstSeenDate := earningsDate,
    lastSeenDate := earningsDate,
    totalEarningsCalls := 1,
    totalCompaniesCovered := 1,
    totalContrarianInstances := 1,
    successfulCalls := if wasCorrect = some true then 1 else 0,
    failedCalls := if wasCorrect = some false then 1 else 0,
    successRate :=
      if wasCorrect = some true then some 100
      else if wasCorrect = some false then some 0
      else none,
    overallScore := contrarianScore,
    avgScore := contrarianScore,
    companiesList := [company],
    latestCompany := company,
    latestSymbol := symbol,
    latestEarningsDate := earningsDate,
    latestContrarianType := contrarianType,
    latestWasCorrect := wasCorrect,
    repeatCount := 0,
    consistencyScore := 100,
    riskLevel := "New",
    lastUpdated := now }

/-- `_update_existing_author`: the in-place mutation of an existing row,
rendered functionally.  Counters, company set, success/failure tallies,
success rate (recomputed only when at least one resolved call exists),
scores, "latest" fields, repeat count, consistency and risk level are
updated exactly as in the source. -/
def updateExistingAuthor (r : AuthorRecord) (company symbol earningsDate
    contrarianType : String) (wasCorrect : Option Bool)
    (contrarianScore : ℚ) (now : String) : AuthorRecord :=
  let calls := r.totalEarningsCalls + 1
  let inst := r.totalContrarianInstances + 1
  let newCompany := ¬ (company ∈ r.companiesList)
  let clist := if company ∈ r.companiesList then r.companiesList
               else r.companiesList ++ [company]
  let covered := if newCompany then clist.length else r.totalCompaniesCovered
  let succ := if wasCorrect = some true then r.successfulCalls + 1
              else r.successfulCalls
  let failed := if wasCorrect = some false then r.failedCalls + 1
                else r.failedCalls
  let resolved := succ + failed
  let rate := if 0 < resolved then
                some (round1 (((succ : ℚ) / (resolved : ℚ)) * 100))
              else r.successRate
  let totalScore := round2 (r.overallScore + contrarianScore)
  let avg := round2 (totalScore / (inst : ℚ))
  let repeat_ := if 1 < inst then inst - 1 else r.repeatCount
  let consistency := round1 (((inst : ℚ) / (calls : ℚ)) * 100)
  { r with
    totalEarningsCalls := calls,
    totalContrarianInstances := inst,
    companiesList := clist,
    totalCompaniesCovered := covered,
    successfulCalls := succ,
    failedCalls := failed,
    successRate := rate,
    overallScore := totalScore,
    avgScore := avg,
    lastSeenDate := earningsDate,
    latestCompany := company,
    latestSymbol := symbol,
    latestEarningsDate := earningsDate,
    latestContrarianType := contrarianType,
    latestWasCorrect := wasCorrect,
    repeatCount := repeat_,
    consistencyScore := consistency,
    riskLevel := calculateRiskLevel rate inst consistency,
    lastUpdated := now }

/-- The in-memory ledger table: an association list from author id to
row, with Python-dict update semantics (update in place, insert at the
end). -/
def Ledger : Type := List (String × AuthorRecord)

/-- Dictionary lookup. -/
def lookupA : Ledger → String → Option AuthorRecord
  | [], _ => none
  | (k, v) :: rest, k' => if k = k' then some v else lookupA rest k'

/-- Dictionary update: replace in place, or append a new key at the end
(CPython dict insertion order). -/
def setA : Ledger → String → AuthorRecord → Ledger
  | [], k, v => [(k, v)]
  | (k', v') :: rest, k, v =>
      if k' = k then (k, v) :: rest else (k', v') :: setA rest k v

/-- The per-finding body of the loop in `add_contrarian_analysis`:
derive the author id, evaluate accuracy against the report's actual
result, and create or update the author's row. -/
def processFinding (company symbol earningsDate : String)
    (ar : Option ActualResult) (now : String) (led : Ledger)
    (c : ContrarianDict) : Ledger :=
  let authorId := generateAuthorId c.author
  let wasCorrect := evalAccuracy c ar
  let contrarianType := determineContrarianType c
  match lookupA led authorId with
  | some r =>
      setA led authorId
        (updateExistingAuthor r company symbol earningsDate contrarianType
          wasCorrect c.contrarian_score now)
  | none =>
      setA led authorId
        (createNewAuthorRecord c.author authorId company symbol earningsDate
          contrarianType wasCorrect c.contrarian_score now)

/-- `add_contrarian_analysis`: fold every contrarian of the batch into
the loaded table (the read-modify-write of the whole table is modelled
by the `Ledger` value passed in and returned). -/
def addContrarianAnalysis (company symbol earningsDate : String)
    (ar : Option ActualResult) (now : String) (led : Ledger)
    (contrarians : List ContrarianDict) : Ledger :=
  contrarians.foldl (processFinding company symbol earningsDate ar now) led

/-! ## Queries (read side) -/

/-- One row of a per-author history file, as written by
`_save_author_history` (free-text passthrough fields omitted). -/
structure HistoryRow where
  authorName : String
  company : String
  symbol : String
  earningsDate : String
  sentiment : String
  earningsPrediction : String
  contrarianType : String
  contrarianScore : ℚ
  wasMinoritySentiment : Bool
  wasMinorityPrediction : Bool
  wasCorrect : Option Bool
deriving Repr, DecidableEq

/-- History-file lookup by author id. -/
def lookupH : List (String × List HistoryRow) → String → Option (List HistoryRow)
  | [], _ => none
  | (k, v) :: rest, k' => if k = k' then some v else lookupH rest k'

/-- The persisted state the read-side queries see: the master CSV (absent
file modelled as `none`, existing file as its list of rows) and the
per-author history files. -/
structure DBState where
  masterTable : Option (List AuthorRecord)
  histories : List (String × List HistoryRow)

/-- `get_top_contrarians`: `df.nlargest(limit, sort_by)` when the master
CSV exists (modelled as a stable descending sort by the sort key followed
by `take`), empty otherwise.  The read does not touch the state. -/
def getTopContrarians (s : DBState) (limit : ℕ) (key : AuthorRecord → ℚ) :
    List AuthorRecord :=
  match s.masterTable with
  | none => []
  | some rows => (sortDescBy key rows).take limit

/-- `get_repeat_contrarians`: rows with at least `min_instances`
contrarian instances when the master CSV exists, empty otherwise. -/
def getRepeatContrarians (s : DBState) (minInstances : ℕ) : List AuthorRecord :=
  match s.masterTable with
  | none => []
  | some rows => rows.filter (fun r => minInstances ≤ r.totalContrarianInstances)

/-- `get_author_history`: the author's history file when it exists,
`None` otherwise. -/
def getAuthorHistory (s : DBState) (authorName : String) :
    Option (List HistoryRow) :=
  lookupH s.histories (generateAuthorId authorName)

/-! ## Spec-side definitions (for refinement claims) -/

/-- Risk tier exactly as the spec sentence words it: unknown if fewer
than 2 contrarian instances or the success rate is undefined; low-risk if
`success_rate ≥ 70` and instances ≥ 3; high-risk if `success_rate < 30`
or consistency < 20; medium-risk otherwise. -/
def specRiskTier (successRate : Option ℚ) (instances : ℕ)
    (consistency : ℚ) : String :=
  match successRate with
  | none => "Unknown"
  | some sr =>
    if instances < 2 then "Unknown"
    else if sr ≥ 70 ∧ instances ≥ 3 then "Low_Risk"
    else if sr < 30 ∨ consistency < 20 then "High_Risk"
    else "Medium_Risk"

/-- Confidence bonus as the claim words it: +20/+10/+5 for
high/medium/low and +0 if confidence is absent. -/
def claimConfidenceBonus (c : Option String) : ℚ :=
  if c = some "high" then 20
  else if c = some "medium" then 10
  else if c = some "low" then 5
  else 0

/-- A single dimension's claimed score contribution: `(1 - share) * 100`
plus the claimed confidence bonus, the whole contribution multiplied by
1.5 when the dimension is individually correct and an outcome exists;
zero when the dimension is not minority. -/
def claimDimContribution (minority : Bool) (share : ℚ) (conf : Option String)
    (outcomePresent correct : Bool) : ℚ :=
  if minority then
    ((1 - share) * 100 + claimConfidenceBonus conf)
      * (if outcomePresent && correct then 3/2 else 1)
  else 0

/-- The claimed final score: the sum of the two dimension
contributions. -/
def claimScore (minS : Bool) (spct : ℚ) (conf : Option String) (sCorrect : Bool)
    (minP : Bool) (ppct : ℚ) (pconf : Option String) (pCorrect : Bool)
    (outcomePresent : Bool) : ℚ :=
  claimDimContribution minS spct conf outcomePresent sCorrect
    + claimDimContribution minP ppct pconf outcomePresent pCorrect

/-- The amended confidence bonus: +20 for high, +10 for medium, +5
otherwise (low or absent). -/
def amendedDimContribution (minority : Bool) (share : ℚ) (conf : Option String)
    (outcomePresent correct : Bool) : ℚ :=
  if minority then
    ((1 - share) * 100 + confidenceBonus conf)
      * (if outcomePresent && correct then 3/2 else 1)
  else 0

/-! ## Theorems -/

/-- C1: the ledger's risk tier is a pure function of the success rate,
the total contrarian instances and the consistency score, and it agrees
with the spec's formula everywhere (the source's extra
`success_rate ≥ 50 and consistency ≥ 50` medium branch is subsumed by the
spec's "medium-risk otherwise"). -/
theorem c1_risk_tier_matches_spec (sr : Option ℚ) (n : ℕ) (c : ℚ) :
    calculateRiskLevel sr n c = specRiskTier sr n c := by
  cases sr with
  | none => rfl
  | some q =>
    simp only [calculateRiskLevel, specRiskTier]
    split_ifs with h1 h2 h3 h4 h5 <;> try rfl
    all_goals (exfalso; rcases h4 with h4 | h4 <;> linarith [h3.1, h3.2])

/-- Updating a key and reading it back yields the written row. -/
theorem lookupA_setA_self (l : Ledger) (k : String) (v : AuthorRecord) :
    lookupA (setA l k v) k = some v := by
  induction l with
  | nil => simp [setA, lookupA]
  | cons hd tl ih =>
    obtain ⟨k', v'⟩ := hd
    by_cases h : k' = k <;> simp [setA, lookupA, h, ih]

/-- C2: when the event has no resolved actual outcome,
`_evaluate_contrarian_accuracy` yields `None` (unknown, never `False`),
and merging the finding leaves the author's success and failure counters
at their previous values (or creates them at zero), recording the latest
correctness as unknown. -/
theorem c2_no_outcome_unknown_counters_untouched (c : ContrarianDict)
    (company symbol earningsDate now : String) (led : Ledger) :
    evalAccuracy c none = none ∧
    ((lookupA (processFinding company symbol earningsDate none now led c)
        (generateAuthorId c.author)).map
          (fun r => (r.successfulCalls, r.failedCalls))
      = some (((lookupA led (generateAuthorId c.author)).map
          (fun r => (r.successfulCalls, r.failedCalls))).getD (0, 0))) ∧
    ((lookupA (processFinding company symbol earningsDate none now led c)
        (generateAuthorId c.author)).map (fun r => r.latestWasCorrect)
      = some none) := by
  refine ⟨rfl, ?_, ?_⟩ <;>
  · unfold processFinding
    cases h : lookupA led (generateAuthorId c.author) with
    | none =>
        simp [h, lookupA_setA_self, createNewAuthorRecord, evalAccuracy]
    | some r =>
        simp [h, lookupA_setA_self, updateExistingAuthor, evalAccuracy]

/-- C3 counterexample: for the opinion "bullish"/"meet" on an event whose
outcome is a +5% move discretized as "beat", the scorer's `was_correct`
is `True` (the mapped sentiment matches), yet the ledger merge counts the
very same finding as a failed contrarian call, because
`_evaluate_contrarian_accuracy` compares only the prediction. -/
theorem c3_counterexample :
    wasCorrectOf "bullish" "meet"
        (some { price_change_percent := 5, result := "beat" }) = true ∧
    evalAccuracy
        { author := "alice", earnings_prediction := "meet",
          sentiment := "bullish", contrarian_score := 50,
          was_minority_sentiment := true, was_minority_prediction := false }
        (some { price_change_percent := 5, result := "beat" }) = some false ∧
    (lookupA
        (processFinding "Google" "GOOGL" "2024-01-30"
          (some { price_change_percent := 5, result := "beat" }) "t" []
          { author := "alice", earnings_prediction := "meet",
            sentiment := "bullish", contrarian_score := 50,
            was_minority_sentiment := true, was_minority_prediction := false })
        "alice").map (fun r => (r.successfulCalls, r.failedCalls))
      = some (0, 1) := by
  refine ⟨by decide, by decide, ?_⟩
  decide

/-- C3 amended: the scorer's `is_correct` is indeed the lenient OR of the
two comparisons, but the definition the ledger merge applies to its
success/failure counters is a different one: `_evaluate_contrarian_accuracy`
is a pure function of the prediction alone (it never consults the
sentiment), counting a call successful exactly when the lowercased
prediction equals the lowercased actual result within the three known
categories. -/
theorem c3_amended_scorer_or_ledger_prediction_only :
    (∀ (s p : String) (ar : Option ActualResult),
      wasCorrectOf s p ar = true ↔
        ∃ a, ar = some a ∧
          (s = actualSentiment a.price_change_percent ∨ p = a.result)) ∧
    (∀ (c : ContrarianDict) (a : ActualResult),
      evalAccuracy c (some a) = some true ↔
        (pyLower c.earnings_prediction = pyLower a.result ∧
          (pyLower c.earnings_prediction = "beat" ∨
           pyLower c.earnings_prediction = "miss" ∨
           pyLower c.earnings_prediction = "meet"))) ∧
    (∀ (c₁ c₂ : ContrarianDict) (a : ActualResult),
      c₁.earnings_prediction = c₂.earnings_prediction →
        evalAccuracy c₁ (some a) = evalAccuracy c₂ (some a)) := by
  refine ⟨?_, ?_, ?_⟩
  · intro s p ar
    cases ar with
    | none => simp [wasCorrectOf, sentimentCorrectOf, predictionCorrectOf]
    | some a =>
        simp [wasCorrectOf, sentimentCorrectOf, predictionCorrectOf]
  · intro c a
    simp only [evalAccuracy]
    split_ifs with h1 h2 h3 h4
    · simp [h1.1, h1.2]
    · simp [h2.1, h2.2]
    · simp [h3.1, h3.2]
    · constructor
      · intro h; exact absurd h (by simp)
      · rintro ⟨hpo, hcat⟩
        exfalso
        rcases hcat with h | h | h
        · exact h1 ⟨h, by rw [← hpo]; exact h⟩
        · exact h2 ⟨h, by rw [← hpo]; exact h⟩
        · exact h3 ⟨h, by rw [← hpo]; exact h⟩
    · constructor
      · intro h; exact absurd h (by simp)
      · rintro ⟨hpo, hcat⟩
        exfalso
        rcases hcat with h | h | h
        · exact h1 ⟨h, by rw [← hpo]; exact h⟩
        · exact h2 ⟨h, by rw [← hpo]; exact h⟩
        · exact h3 ⟨h, by rw [← hpo]; exact h⟩
  · intro c₁ c₂ a h
    simp only [evalAccuracy, h]

/-- A five-article batch: one bullish/beat opinion with absent confidence
labels against four bearish/miss opinions. -/
def batchC4 : List Article :=
  [ { author := "a1", headline := "h1", date := "d", url := "u1",
      analysis := some { sentiment := "bullish", earnings_prediction := "beat",
                         confidence := none, prediction_confidence := none } },
    { author := "a2", headline := "h2", date := "d", url := "u2",
      analysis := some { sentiment := "bearish", earnings_prediction := "miss",
                         confidence := some "high",
                         prediction_confidence := some "high" } },
    { author := "a3", headline := "h3", date := "d", url := "u3",
      analysis := some { sentiment := "bearish", earnings_prediction := "miss",
                         confidence := some "high",
                         prediction_confidence := some "high" } },
    { author := "a4", headline := "h4", date := "d", url := "u4",
      analysis := some { sentiment := "bearish", earnings_prediction := "miss",
                         confidence := some "high",
                         prediction_confidence := some "high" } },
    { author := "a5", headline := "h5", date := "d", url := "u5",
      analysis := some { sentiment := "bearish", earnings_prediction := "miss",
                         confidence := some "high",
                         prediction_confidence := some "high" } } ]

/-- C4 counterexample: for the lone 20%-share opinion of `batchC4`, whose
confidence labels are absent and with no outcome available, the claimed
formula (confidence bonus +0 when absent) yields 160, but the code emits
170: the `else 5` branch of the confidence bonus also applies to an
absent confidence, contributing +5 per dimension, not +0. -/
theorem c4_counterexample :
    claimScore true (1/5) none false true (1/5) none false false = 160 ∧
    (identifyContrarians batchC4 none).map
        (fun f => (f.author, f.contrarian_score)) = [("a1", 170)] := by
  constructor
  · simp [claimScore, claimDimContribution, claimConfidenceBonus]
    norm_num
  · simp [identifyContrarians, batchC4, List.count_cons, List.filterMap,
      sentimentCorrectOf, predictionCorrectOf, scoreOf, confidenceBonus,
      round1, round2]
    norm_num [round_eq]
    simp [sortDescBy, insertDescBy]

/-- C4 amended: the contrarian score is the sum, over the (at most two)
minority dimensions, of `(1 - share) * 100` plus a confidence bonus of
+20 for high, +10 for medium and +5 otherwise (low as well as absent),
the whole dimension contribution multiplied by 1.5 when that dimension is
individually correct and an outcome exists; a non-minority dimension
contributes nothing. -/
theorem c4_amended_score_formula (minS : Bool) (spct : ℚ)
    (conf : Option String) (sC : Bool) (minP : Bool) (ppct : ℚ)
    (pconf : Option String) (pC : Bool) (op : Bool) :
    scoreOf minS spct conf sC minP ppct pconf pC op =
      amendedDimContribution minS spct conf op sC
        + amendedDimContribution minP ppct pconf op pC := by
  cases minS <;> cases minP <;> cases op <;> cases sC <;> cases pC <;>
    simp [scoreOf, amendedDimContribution]

/-- C5: merging the same single contrarian finding twice into an empty
ledger is not equivalent to merging it once: the first merge creates the
author row with appearance and contrarian-instance counters at 1, and the
second merge increments both to 2 — no deduplication takes place. -/
theorem c5_double_merge_not_idempotent (c : ContrarianDict)
    (company symbol earningsDate : String) (ar : Option ActualResult)
    (now now' : String) :
    (lookupA (addContrarianAnalysis company symbol earningsDate ar now [] [c])
        (generateAuthorId c.author)).map
        (fun r => (r.totalEarningsCalls, r.totalContrarianInstances))
      = some (1, 1) ∧
    (lookupA (addContrarianAnalysis company symbol earningsDate ar now'
          (addContrarianAnalysis company symbol earningsDate ar now [] [c]) [c])
        (generateAuthorId c.author)).map
        (fun r => (r.totalEarningsCalls, r.totalContrarianInstances))
      = some (2, 2) ∧
    addContrarianAnalysis company symbol earningsDate ar now'
        (addContrarianAnalysis company symbol earningsDate ar now [] [c]) [c]
      ≠ addContrarianAnalysis company symbol earningsDate ar now [] [c] := by
  have h1 : (lookupA
      (addContrarianAnalysis company symbol earningsDate ar now [] [c])
      (generateAuthorId c.author)).map
      (fun r => (r.totalEarningsCalls, r.totalContrarianInstances))
      = some (1, 1) := by
    simp [addContrarianAnalysis, processFinding, lookupA, setA,
      createNewAuthorRecord]
  have h2 : (lookupA (addContrarianAnalysis company symbol earningsDate ar now'
      (addContrarianAnalysis company symbol earningsDate ar now [] [c]) [c])
      (generateAuthorId c.author)).map
      (fun r => (r.totalEarningsCalls, r.totalContrarianInstances))
      = some (2, 2) := by
    simp [addContrarianAnalysis, processFinding, lookupA, setA,
      createNewAuthorRecord, updateExistingAuthor]
  refine ⟨h1, h2, ?_⟩
  intro h
  have h3 := congrArg (fun l => (lookupA l (generateAuthorId c.author)).map
      (fun r => (r.totalEarningsCalls, r.totalContrarianInstances))) h
  simp only [h1, h2] at h3
  exact absurd h3 (by simp)

/-- C6: a batch consisting of exactly one validly analyzed article yields
no contrarian: the production analyzer emits no finding at all (the lone
opinion holds a 100% share of both distributions, never below the 40%
minority threshold), and the simplified analyzer's record for it carries
`was_contrarian = false` (the lone opinion is its own consensus). -/
theorem c6_single_opinion_never_contrarian (a : Article) (an : Analysis)
    (ar : Option ActualResult) (h : a.analysis = some an) :
    identifyContrarians [a] ar = [] ∧
    ∀ r ∈ identifyContrariansSimplified [a] ar, r.was_contrarian = false := by
  constructor
  · simp [identifyContrarians, h, List.count_cons]
    norm_num
    simp [sortDescBy]
  · intro r hr
    simp [identifyContrariansSimplified, h, mostCommon, firstOccurrences]
      at hr
    simp [hr]

/-- A concrete single-article batch used to instantiate C6. -/
def articleC6 : Article :=
  { author := "Solo Author", headline := "h", date := "d", url := "u",
    analysis := some { sentiment := "bullish", earnings_prediction := "beat",
                       confidence := some "high",
                       prediction_confidence := some "low" } }

/-- C6 witness: the single-opinion property instantiated on a concrete
article. -/
theorem c6_single_opinion_never_contrarian_witness :
    identifyContrarians [articleC6] none = [] :=
  (c6_single_opinion_never_contrarian articleC6
    { sentiment := "bullish", earnings_prediction := "beat",
      confidence := some "high", prediction_confidence := some "low" }
    none rfl).1

/-- The author rows reachable by the ledger's per-entry state machine:
created once by `_create_new_author_record`, then updated any number of
times by `_update_existing_author`. -/
inductive Reachable : AuthorRecord → Prop
  | create (authorName authorId company symbol earningsDate
      contrarianType : String) (wasCorrect : Option Bool) (score : ℚ)
      (now : String) :
      Reachable (createNewAuthorRecord authorName authorId company symbol
        earningsDate contrarianType wasCorrect score now)
  | update (r : AuthorRecord) (company symbol earningsDate
      contrarianType : String) (wasCorrect : Option Bool) (score : ℚ)
      (now : String) : Reachable r →
      Reachable (updateExistingAuthor r company symbol earningsDate
        contrarianType wasCorrect score now)

/-- Rounding to one decimal keeps a value of [0, 100] inside [0, 100]. -/
theorem round1_bounds {x : ℚ} (h0 : 0 ≤ x) (h1 : x ≤ 100) :
    0 ≤ round1 x ∧ round1 x ≤ 100 := by
  have hb : |x * 10 - (round (x * 10) : ℚ)| ≤ 1/2 := abs_sub_round (x * 10)
  rw [abs_sub_le_iff] at hb
  obtain ⟨hb1, hb2⟩ := hb
  have hlo : (0 : ℤ) ≤ round (x * 10) := by
    by_contra hc
    push_neg at hc
    have hc' : round (x * 10) ≤ -1 := by omega
    have : ((round (x * 10) : ℤ) : ℚ) ≤ -1 := by exact_mod_cast hc'
    linarith
  have hhi : round (x * 10) ≤ 1000 := by
    by_contra hc
    push_neg at hc
    have hc' : (1001 : ℤ) ≤ round (x * 10) := by omega
    have : (1001 : ℚ) ≤ ((round (x * 10) : ℤ) : ℚ) := by exact_mod_cast hc'
    linarith
  unfold round1
  constructor
  · apply div_nonneg _ (by norm_num)
    exact_mod_cast hlo
  · rw [div_le_iff₀ (by norm_num)]
    have : ((round (x * 10) : ℤ) : ℚ) ≤ 1000 := by exact_mod_cast hhi
    linarith

/-- Bounds for the recomputed success rate `round1 (s / (s + f) * 100)`
with a positive denominator (stated with distributed casts). -/
theorem successRate_bounds (s f : ℚ) (hs : 0 ≤ s) (hf : 0 ≤ f)
    (hpos : 0 < s + f) :
    0 ≤ round1 (s / (s + f) * 100) ∧ round1 (s / (s + f) * 100) ≤ 100 := by
  have hfrac : s / (s + f) ≤ 1 := by
    rw [div_le_one hpos]
    linarith
  have hge : (0 : ℚ) ≤ s / (s + f) * 100 := by positivity
  exact round1_bounds hge (by linarith)

/-- C7: on every reachable author row, the success rate is undefined
exactly while no correctness-resolved instance exists, and otherwise lies
in [0, 100]; its recomputation is guarded by a positive denominator, so
no division by zero ever occurs. -/
theorem c7_success_rate_defined_iff_resolved_and_bounded (r : AuthorRecord)
    (h : Reachable r) :
    (r.successRate = none ↔ r.successfulCalls + r.failedCalls = 0) ∧
    ∀ q, r.successRate = some q → 0 ≤ q ∧ q ≤ 100 := by
  induction h with
  | create name aid company symbol edate ctype wc score now =>
      rcases wc with _ | b
      · constructor <;> simp [createNewAuthorRecord]
      · rcases b <;> constructor <;> simp [createNewAuthorRecord]
  | update r company symbol edate ctype wc score now hr ih =>
      rcases wc with _ | b
      · by_cases hres : r.successfulCalls + r.failedCalls = 0
        · have hnone : r.successRate = none := ih.1.mpr hres
          constructor
          · simp [updateExistingAuthor, hres, hnone]
          · intro q hq
            simp [updateExistingAuthor, hres, hnone] at hq
        · have hpos : 0 < r.successfulCalls + r.failedCalls :=
            Nat.pos_of_ne_zero hres
          constructor
          · simp [updateExistingAuthor, hpos, Nat.pos_iff_ne_zero.mp hpos]
          · intro q hq
            simp [updateExistingAuthor, hpos] at hq
            rw [← hq]
            apply successRate_bounds _ _ (by positivity) (by positivity)
            have h0 : (0 : ℚ) < ((r.successfulCalls + r.failedCalls : ℕ) : ℚ) := by
              exact_mod_cast hpos
            push_cast at h0
            linarith
      · rcases b
        · -- wasCorrect = some false
          constructor
          · simp [updateExistingAuthor]
          · intro q hq
            simp [updateExistingAuthor] at hq
            rw [← hq]
            apply successRate_bounds <;> positivity
        · -- wasCorrect = some true
          constructor
          · simp [updateExistingAuthor]
          · intro q hq
            simp [updateExistingAuthor] at hq
            rw [← hq]
            apply successRate_bounds <;> positivity

/-- C7 witness: the success-rate bound instantiated on a concrete freshly
created row, whose success rate is 100. -/
theorem c7_success_rate_defined_iff_resolved_and_bounded_witness :
    0 ≤ (100 : ℚ) ∧ (100 : ℚ) ≤ 100 :=
  (c7_success_rate_defined_iff_resolved_and_bounded
    (createNewAuthorRecord "Jane Doe" "jane_doe" "Acme" "ACM" "2024-01-01"
      "Sentiment_Only" (some true) 50 "t")
    (Reachable.create "Jane Doe" "jane_doe" "Acme" "ACM" "2024-01-01"
      "Sentiment_Only" (some true) 50 "t")).2 100
    (by simp [createNewAuthorRecord])

/-- Every reachable row has equal appearance and contrarian-instance
counters (the merge increments both together), at least one appearance,
and consistency score exactly 100. -/
theorem reachable_counters_equal (r : AuthorRecord) (h : Reachable r) :
    r.totalContrarianInstances = r.totalEarningsCalls ∧
    1 ≤ r.totalEarningsCalls ∧ r.consistencyScore = 100 := by
  induction h with
  | create name aid company symbol edate ctype wc score now =>
      simp [createNewAuthorRecord]
  | update r company symbol edate ctype wc score now hr ih =>
      obtain ⟨h1, h2, h3⟩ := ih
      refine ⟨by simp [updateExistingAuthor, h1], ?_, ?_⟩
      · simp [updateExistingAuthor]
      · simp [updateExistingAuthor, h1]
        have hne : ((r.totalEarningsCalls : ℚ) + 1) ≠ 0 := by positivity
        rw [div_self hne]
        norm_num [round1, round_eq]

/-- C8: on every reachable author row, the consistency score lies in
[0, 100] and equals contrarian instances divided by appearances times 100
exactly (both counters advance together, so the quotient is exactly 1 and
the one-decimal rounding is the identity here). -/
theorem c8_consistency_score_exact (r : AuthorRecord) (h : Reachable r) :
    0 ≤ r.consistencyScore ∧ r.consistencyScore ≤ 100 ∧
    r.consistencyScore =
      (r.totalContrarianInstances : ℚ) / (r.totalEarningsCalls : ℚ) * 100 := by
  obtain ⟨h1, h2, h3⟩ := reachable_counters_equal r h
  rw [h3, h1]
  have hne : ((r.totalEarningsCalls : ℚ)) ≠ 0 := by
    have h2' : (1 : ℚ) ≤ (r.totalEarningsCalls : ℚ) := by exact_mod_cast h2
    linarith
  rw [div_self hne]
  norm_num

/-- C8 witness: the consistency invariant instantiated on a concrete
row updated once after creation. -/
theorem c8_consistency_score_exact_witness :
    0 ≤ (updateExistingAuthor
        (createNewAuthorRecord "Jane Doe" "jane_doe" "Acme" "ACM"
          "2024-01-01" "Sentiment_Only" (some true) 50 "t")
        "Globex" "GLB" "2024-04-01" "Prediction_Only" (some false) 30
        "t2").consistencyScore ∧
    (updateExistingAuthor
        (createNewAuthorRecord "Jane Doe" "jane_doe" "Acme" "ACM"
          "2024-01-01" "Sentiment_Only" (some true) 50 "t")
        "Globex" "GLB" "2024-04-01" "Prediction_Only" (some false) 30
        "t2").consistencyScore ≤ 100 ∧
    (updateExistingAuthor
        (createNewAuthorRecord "Jane Doe" "jane_doe" "Acme" "ACM"
          "2024-01-01" "Sentiment_Only" (some true) 50 "t")
        "Globex" "GLB" "2024-04-01" "Prediction_Only" (some false) 30
        "t2").consistencyScore =
      ((updateExistingAuthor
        (createNewAuthorRecord "Jane Doe" "jane_doe" "Acme" "ACM"
          "2024-01-01" "Sentiment_Only" (some true) 50 "t")
        "Globex" "GLB" "2024-04-01" "Prediction_Only" (some false) 30
        "t2").totalContrarianInstances : ℚ)
        / ((updateExistingAuthor
        (createNewAuthorRecord "Jane Doe" "jane_doe" "Acme" "ACM"
          "2024-01-01" "Sentiment_Only" (some true) 50 "t")
        "Globex" "GLB" "2024-04-01" "Prediction_Only" (some false) 30
        "t2").totalEarningsCalls : ℚ) * 100 :=
  c8_consistency_score_exact _
    (Reachable.update _ "Globex" "GLB" "2024-04-01" "Prediction_Only"
      (some false) 30 "t2"
      (Reachable.create "Jane Doe" "jane_doe" "Acme" "ACM" "2024-01-01"
        "Sentiment_Only" (some true) 50 "t"))

/-- C9: with a nonexistent master CSV and no history files, and likewise
with an existing but empty master CSV, every read-side query — top-N by a
numeric sort key, repeat contrarians by minimum instance count, and
per-author history (whose absent file is reported as `None`) — returns an
empty result rather than an error; the queries are pure reads of the
persisted state and mutate nothing. -/
theorem c9_queries_tolerate_empty_ledger (limit : ℕ)
    (key : AuthorRecord → ℚ) (minInstances : ℕ) (name : String) :
    getTopContrarians ⟨none, []⟩ limit key = [] ∧
    getRepeatContrarians ⟨none, []⟩ minInstances = [] ∧
    getAuthorHistory ⟨none, []⟩ name = none ∧
    getTopContrarians ⟨some [], []⟩ limit key = [] ∧
    getRepeatContrarians ⟨some [], []⟩ minInstances = [] := by
  refine ⟨rfl, rfl, rfl, ?_, rfl⟩
  simp [getTopContrarians, sortDescBy]

/-- Reading an untouched key is unaffected by updating another key. -/
theorem lookupA_setA_other (l : Ledger) (k k' : String) (v : AuthorRecord)
    (h : k ≠ k') : lookupA (setA l k v) k' = lookupA l k' := by
  induction l with
  | nil => simp [setA, lookupA, h]
  | cons hd tl ih =>
    obtain ⟨k0, v0⟩ := hd
    by_cases h0 : k0 = k
    · subst h0
      simp [setA, lookupA, h]
    · simp [setA, lookupA, h0, ih]

/-- C10: merging a batch of findings leaves the row of every author whose
normalized identity does not occur among the batch's findings unchanged —
although the whole table is read, rewritten and saved, the lookup of a
non-mentioned author id after the merge equals the one before, every
field included. -/
theorem c10_merge_preserves_unmentioned_authors (led : Ledger)
    (cs : List ContrarianDict) (company symbol earningsDate : String)
    (ar : Option ActualResult) (now : String) (aid : String)
    (h : aid ∉ cs.map (fun c => generateAuthorId c.author)) :
    lookupA (addContrarianAnalysis company symbol earningsDate ar now led cs)
      aid = lookupA led aid := by
  induction cs generalizing led with
  | nil => rfl
  | cons c rest ih =>
    simp only [List.map_cons, List.mem_cons, not_or] at h
    obtain ⟨h1, h2⟩ := h
    have hframe : lookupA
        (processFinding company symbol earningsDate ar now led c) aid
        = lookupA led aid := by
      simp only [processFinding]
      cases lookupA led (generateAuthorId c.author) <;>
        exact lookupA_setA_other led (generateAuthorId c.author) aid _
          (Ne.symm h1)
    have hrest := ih (processFinding company symbol earningsDate ar now led c)
      (by simpa using h2)
    simpa [addContrarianAnalysis] using hrest.trans hframe

/-- A stored row for author id "bob", used to instantiate C10. -/
def recBob : AuthorRecord :=
  createNewAuthorRecord "Bob" "bob" "Acme" "ACM" "2024-01-01"
    "Sentiment_Only" (some true) 50 "t"

/-- A finding by a different author ("Alice Smith"), used to instantiate
C10. -/
def cdictAlice : ContrarianDict :=
  { author := "Alice Smith", earnings_prediction := "miss",
    sentiment := "bearish", contrarian_score := 80,
    was_minority_sentiment := true, was_minority_prediction := true }

/-- C10 witness: merging a batch containing only Alice's finding does not
change Bob's stored row. -/
theorem c10_merge_preserves_unmentioned_authors_witness :
    lookupA (addContrarianAnalysis "Globex" "GLB" "2024-04-01" none "t2"
        [("bob", recBob)] [cdictAlice]) "bob"
      = lookupA [("bob", recBob)] "bob" :=
  c10_merge_preserves_unmentioned_authors [("bob", recBob)] [cdictAlice]
    "Globex" "GLB" "2024-04-01" none "t2" "bob" (by decide)

/-- Two findings sharing the prediction "meet" but with opposite
sentiments, used to instantiate the sentiment-independence of the ledger
accuracy. -/
def cdictMeetBull : ContrarianDict :=
  { author := "alice", earnings_prediction := "meet", sentiment := "bullish",
    contrarian_score := 50, was_minority_sentiment := true,
    was_minority_prediction := false }

/-- As `cdictMeetBull` but bearish. -/
def cdictMeetBear : ContrarianDict :=
  { author := "bob", earnings_prediction := "meet", sentiment := "bearish",
    contrarian_score := 10, was_minority_sentiment := false,
    was_minority_prediction := true }

/-- C3 amended witness: the ledger accuracy ignores the sentiment — two
findings with the same prediction and opposite sentiments get the same
verdict. -/
theorem c3_amended_scorer_or_ledger_prediction_only_witness :
    evalAccuracy cdictMeetBull
        (some { price_change_percent := 5, result := "beat" })
      = evalAccuracy cdictMeetBear
        (some { price_change_percent := 5, result := "beat" }) :=
  c3_amended_scorer_or_ledger_prediction_only.2.2 cdictMeetBull cdictMeetBear
    { price_change_percent := 5, result := "beat" } rfl
